import Mathlib

/-!
# Verification development for `pkg/schedule/schedule.go`

A shallow embedding of the package `schedule` (the HTML navigation and the
hourly scan of `LoadBlackouts`) followed by theorems about it.

Modelling conventions
* A `time.Time` is its instant, in nanoseconds since the Unix epoch (`Int`).
  `Time.In` changes the location used for display only, never the instant.
* A non-nil `*html.Node` is a `NodeRef`: the node together with the list of its
  following siblings; a nil pointer is `none`.  Only `FirstChild`,
  `NextSibling`, `Data` and `Attr` are read by the program.
* A `*time.Time` is `none` (nil) or the address of a variable.  The only
  variable of the program whose address is taken is the local `startTime` of
  `LoadBlackouts`; its content after the call is kept in `Memory`.
* A call either returns, or stops with a nil-pointer dereference, or ends the
  process through `log.Fatalln`: see `Outcome`.
* The outside world (HTTP, the HTML parser, the time zone database, the clock)
  is the parameter `World`.
-/

namespace Schedule

/-! ## Time -/

/-- Instant of a `time.Time`, in nanoseconds since the Unix epoch. -/
abbrev Time := Int

/-- Constant `time.Hour`, a duration in nanoseconds. -/
def Hour : Int := 3600000000000

/-- Method `Time.Add`. -/
def Time.Add (t : Time) (d : Int) : Time := t + d

/-! ## Pointers to `time.Time` and the result types -/

/-- Variables whose address is taken in the package (`&startTime`, lines 154 and 158). -/
inductive Var where
  | startTime
  deriving DecidableEq, Repr

/-- Type `*time.Time`: nil or the address of a variable. -/
abbrev TimePtr := Option Var

/-- Struct `Timeblock` (lines 14-17). -/
structure Timeblock where
  StartAt : TimePtr
  EndAt : TimePtr
  deriving DecidableEq, Repr

/-- Type `Blackouts` (line 19); the nil slice is the empty list. -/
abbrev Blackouts := List Timeblock

/-- Content, after the call, of the variables that the returned pointers refer to;
`none` when the declaration of `startTime` (line 144) was not reached. -/
structure Memory where
  startTime : Option Time
  deriving DecidableEq, Repr

/-- Reading through a `*time.Time`; `none` for the nil pointer. -/
def Memory.load (m : Memory) : TimePtr → Option Time
  | none => none
  | some Var.startTime => m.startTime

/-- How a call can end. -/
inductive Outcome (α : Type) where
  | returned (v : α)
  | nilDereference
  | fatal (msg : String)
  deriving DecidableEq, Repr

/-! ## Constants (lines 21-28) -/

def blackoutsPageURL : String := "https://oblenergo.cv.ua/shutdowns"

def minGroupNumber : Int := 1

def maxGroupNumber : Int := 18

def tableValuePowerIsOn : String := "з"

/-! ## The HTML tree of `golang.org/x/net/html` -/

/-- Type `html.NodeType`. -/
inductive NodeType where
  | ErrorNode
  | TextNode
  | DocumentNode
  | ElementNode
  | CommentNode
  | DoctypeNode
  | RawNode
  deriving DecidableEq, Repr

/-- Struct `html.Attribute`. -/
structure Attribute where
  Namespace : String
  Key : String
  Val : String
  deriving DecidableEq, Repr

/-- Struct `html.Node`, with the child list in place of the sibling pointers. -/
inductive Node where
  | mk (Typ : NodeType) (Data : String) (Attr : List Attribute) (Children : List Node)

/-- Field `Type` of a node. -/
def Node.Typ : Node → NodeType
  | .mk t _ _ _ => t

/-- Field `Data` of a node. -/
def Node.Data : Node → String
  | .mk _ d _ _ => d

/-- Field `Attr` of a node. -/
def Node.Attr : Node → List Attribute
  | .mk _ _ a _ => a

/-- Children of a node, first child first. -/
def Node.Children : Node → List Node
  | .mk _ _ _ c => c

/-- A non-nil `*html.Node`: the node and its following siblings. -/
structure NodeRef where
  node : Node
  siblings : List Node

/-- Field `FirstChild`; `none` is nil. -/
def NodeRef.FirstChild (n : NodeRef) : Option NodeRef :=
  match n.node.Children with
  | [] => none
  | c :: cs => some ⟨c, cs⟩

/-- Field `NextSibling`; `none` is nil. -/
def NodeRef.NextSibling (n : NodeRef) : Option NodeRef :=
  match n.siblings with
  | [] => none
  | c :: cs => some ⟨c, cs⟩

/-! ## `strings.TrimSpace` -/

/-- Function `unicode.IsSpace`. -/
def isSpace (c : Char) : Bool :=
  let n := c.toNat
  n == 0x09 || n == 0x0A || n == 0x0B || n == 0x0C || n == 0x0D || n == 0x20 ||
  n == 0x85 || n == 0xA0 || n == 0x1680 || (0x2000 ≤ n && n ≤ 0x200A) ||
  n == 0x2028 || n == 0x2029 || n == 0x202F || n == 0x205F || n == 0x3000

/-- Function `strings.TrimSpace`: leading and trailing white space removed. -/
def TrimSpace (s : String) : String :=
  String.mk ((s.data.dropWhile isSpace).reverse.dropWhile isSpace).reverse

/-! ## The lookups (lines 48-86) -/

/-- Loop of `findChildByCriteriaFunc` (lines 54-64), at the child `child` whose following
siblings are `rest`. -/
def findLoop (criteriaFunc : NodeRef → Bool) : Node → List Node → Option NodeRef
  | child, rest =>
    if criteriaFunc ⟨child, rest⟩ then some ⟨child, rest⟩
    else
      match rest with
      | [] => none
      | c :: cs => findLoop criteriaFunc c cs

/-- Function `findChildByCriteriaFunc` (lines 48-65). -/
def findChildByCriteriaFunc (node : NodeRef) (criteriaFunc : NodeRef → Bool) : Option NodeRef :=
  match node.FirstChild with
  | none => none
  | some child => findLoop criteriaFunc child.node child.siblings

/-- Loop of `getElementID` over the attributes. -/
def getElementIDLoop : List Attribute → String
  | [] => ""
  | attr :: rest => if attr.Key = "id" then attr.Val else getElementIDLoop rest

/-- Function `getElementID` (lines 67-74). -/
def getElementID (node : NodeRef) : String :=
  getElementIDLoop node.node.Attr

/-- Function `findChildElementWithID` (lines 76-80). -/
def findChildElementWithID (node : NodeRef) (id : String) : Option NodeRef :=
  findChildByCriteriaFunc node (fun child => decide (getElementID child = id))

/-- Function `findChildElementOfType` (lines 82-86). -/
def findChildElementOfType (node : NodeRef) (elType : String) : Option NodeRef :=
  findChildByCriteriaFunc node (fun child => decide (child.node.Data = elType))

/-! ## The outside world -/

/-- What the program reads of a `*http.Response`: the status code and the outcome of
`io.ReadAll(resp.Body)`. -/
structure Response where
  StatusCode : Int
  Body : Except String String

/-- The collaborators of `LoadBlackouts`: `http.Get`, `html.Parse`, `time.LoadLocation`
and `time.Now`. An `Except.error` carries the message of the Go error. -/
structure World where
  Get : String → Except String Response
  Parse : String → Except String Node
  LoadLocation : String → Except String Unit
  Now : Time

/-- Method `Time.In`: the same instant, shown in another location. -/
def Time.In (t : Time) (_loc : Unit) : Time := t

/-- Function `loadBlackoutsPage` (lines 30-46). -/
def loadBlackoutsPage (w : World) : Except String String :=
  match w.Get blackoutsPageURL with
  | .error err => .error ("send GET request: " ++ err)
  | .ok resp =>
    if resp.StatusCode ≠ 200 then
      .error ("unexpected response status code: " ++ toString resp.StatusCode)
    else
      match resp.Body with
      | .error err => .error ("read response body: " ++ err)
      | .ok respBody => .ok respBody

/-- Function `dayStartTimeCV` (lines 88-94). -/
def dayStartTimeCV (w : World) : Outcome Time :=
  match w.LoadLocation "Europe/Kyiv" with
  | .error err => .fatal ("failed to load timezone " ++ err)
  | .ok loc => .returned (Time.In w.Now loc)

/-! ## `LoadBlackouts` (lines 96-174) -/

/-- Navigation of `LoadBlackouts` (lines 111-140): the group row, or the error returned. -/
def navigate (rootNode : NodeRef) (group : Int) : Outcome (Except String NodeRef) :=
  match findChildElementOfType rootNode "html" with
  | none => .nilDereference
  | some found =>
  match found.NextSibling with
  | none => .returned (.error "missing 'html' tag on the page")
  | some htmlNode =>
  match findChildElementOfType htmlNode "body" with
  | none => .returned (.error "missing 'body' tag on the page")
  | some bodyNode =>
  match findChildElementOfType bodyNode "main" with
  | none => .returned (.error "can not find 'main' tag on the page")
  | some mainNode =>
  match findChildElementWithID mainNode "gsv" with
  | none => .returned (.error "can not find the schedule table on the page")
  | some gsvNode =>
  match findChildElementOfType gsvNode "div" with
  | none => .returned (.error "unexpected schedule table structure")
  | some innerDiv =>
  let groupRowElID := "inf" ++ toString group
  match findChildElementWithID innerDiv groupRowElID with
  | none => .returned (.error "can not find a row for the requested group number")
  | some groupRow => .returned (.ok groupRow)

/-- Local variables of the scan (lines 142-147). -/
structure ScanState where
  blackouts : Blackouts
  startTime : Time
  endTime : Time
  currTimeblock : Timeblock
  deriving DecidableEq, Repr

/-- Lines 151-162: the branch on the text of one cell. -/
def scanCell (data : String) (s : ScanState) : ScanState :=
  if TrimSpace data ≠ tableValuePowerIsOn then
    if s.currTimeblock.StartAt = none then
      { s with currTimeblock := { s.currTimeblock with StartAt := some Var.startTime } }
    else s
  else if s.currTimeblock.StartAt ≠ none then
    let closed : Timeblock := { s.currTimeblock with EndAt := some Var.startTime }
    { s with blackouts := s.blackouts ++ [closed], currTimeblock := ⟨none, none⟩ }
  else s

/-- Loop of lines 150-171, at the cell `groupColumn` whose following siblings are `rest`. -/
def scanLoop : Node → List Node → ScanState → Outcome ScanState
  | groupColumn, rest, s =>
    match groupColumn.Children with
    | [] => .nilDereference
    | firstChild :: _ =>
      let s1 := scanCell firstChild.Data s
      match rest with
      | [] => .returned s1
      | next :: rest1 =>
        scanLoop next rest1 { s1 with startTime := s1.endTime, endTime := Time.Add s1.endTime (1 * Hour) }

/-- Scan of `LoadBlackouts` (lines 142-173) from the anchor `T0`: the slice returned and
the final content of the variable `startTime`. -/
def scan (groupRow : NodeRef) (T0 : Time) : Outcome (Blackouts × Time) :=
  let s0 : ScanState := ⟨[], T0, Time.Add T0 (1 * Hour), ⟨none, none⟩⟩
  match groupRow.FirstChild with
  | none => .nilDereference
  | some groupColumn =>
    match scanLoop groupColumn.node groupColumn.siblings s0 with
    | .returned s => .returned (s.blackouts, s.startTime)
    | .nilDereference => .nilDereference
    | .fatal msg => .fatal msg

/-- What `LoadBlackouts` returns: the slice, the error (`none` is nil) and the memory the
pointers of the slice refer to. -/
structure Returned where
  blackouts : Blackouts
  err : Option String
  mem : Memory
  deriving DecidableEq, Repr

/-- Function `LoadBlackouts` (lines 96-174). -/
def LoadBlackouts (w : World) (group : Int) : Outcome Returned :=
  if group < minGroupNumber ∨ group > maxGroupNumber then
    .returned ⟨[], some ("invalid group number, must be within [" ++ toString minGroupNumber
      ++ ", " ++ toString maxGroupNumber ++ "] range"), ⟨none⟩⟩
  else
    match loadBlackoutsPage w with
    | .error err => .returned ⟨[], some ("load blackouts page: " ++ err), ⟨none⟩⟩
    | .ok page =>
    match w.Parse page with
    | .error err => .returned ⟨[], some ("parse page HTML: " ++ err), ⟨none⟩⟩
    | .ok rootNode =>
    match navigate ⟨rootNode, []⟩ group with
    | .nilDereference => .nilDereference
    | .fatal msg => .fatal msg
    | .returned (.error msg) => .returned ⟨[], some msg, ⟨none⟩⟩
    | .returned (.ok groupRow) =>
    match dayStartTimeCV w with
    | .nilDereference => .nilDereference
    | .fatal msg => .fatal msg
    | .returned T0 =>
    match scan groupRow T0 with
    | .nilDereference => .nilDereference
    | .fatal msg => .fatal msg
    | .returned (blackouts, startTime) => .returned ⟨blackouts, none, ⟨some startTime⟩⟩

/-- A `Timeblock` as its holder reads it: the instants behind `StartAt` and `EndAt`. -/
def readBlock (m : Memory) (tb : Timeblock) : Option Time × Option Time :=
  (m.load tb.StartAt, m.load tb.EndAt)

/-- The intervals of a scan as the caller reads them after the return. -/
def readScan : Blackouts × Time → List (Option Time × Option Time)
  | (blackouts, startTime) => blackouts.map (readBlock ⟨some startTime⟩)

/-! ## Building rows -/

/-- A text node. -/
def textNode (data : String) : Node := .mk .TextNode data [] []

/-- An element node. -/
def element (tag : String) (attr : List Attribute) (children : List Node) : Node :=
  .mk .ElementNode tag attr children

/-- A table cell holding one text. -/
def cell (text : String) : Node := element "td" [] [textNode text]

/-- A cell the scan classifies as power on. -/
def cellOn : Node := cell "з"

/-- A cell the scan classifies as power off. -/
def cellOff : Node := cell "в"

/-- A row element with the given cells. -/
def rowOf (cells : List Node) : NodeRef := ⟨element "div" [] cells, []⟩

/-- Mapping over the value of a call that returned. -/
def Outcome.map {α β : Type} (f : α → β) : Outcome α → Outcome β
  | .returned v => .returned (f v)
  | .nilDereference => .nilDereference
  | .fatal msg => .fatal msg

/-- The scan followed by the caller reading every interval after the return. -/
def scanRead (groupRow : NodeRef) (T0 : Time) : Outcome (List (Option Time × Option Time)) :=
  (scan groupRow T0).map readScan

/-! ## Stating where a lookup lands -/

/-- The node `n` carries the data string `t` (the test of `findChildElementOfType`). -/
def HasData (t : String) (n : Node) : Prop := n.Data = t

/-- The node `n` carries the identifier `v` (the test of `findChildElementWithID`). -/
def HasID (v : String) (n : Node) : Prop := getElementIDLoop n.Attr = v

/-- In the sibling list `l`, `x` is the first node that satisfies `p`, and `post` are the
siblings after `x`. -/
def FirstWith (p : Node → Prop) (l : List Node) (x : Node) (post : List Node) : Prop :=
  ∃ pre, l = pre ++ x :: post ∧ (∀ c ∈ pre, ¬ p c) ∧ p x

/-- No node of the sibling list `l` satisfies `p`. -/
def NoneWith (p : Node → Prop) (l : List Node) : Prop := ∀ c ∈ l, ¬ p c

/-- The `html` step finds a match: the first child of the root with data `html` has the
next sibling `h`, which is the node the program calls `htmlNode`. -/
def ReachesHtml (root h : Node) : Prop :=
  ∃ x post, FirstWith (HasData "html") root.Children x (h :: post)

/-- The steps up to `body` find a match, and `b` is the node called `bodyNode`. -/
def ReachesBody (root b : Node) : Prop :=
  ∃ h post, ReachesHtml root h ∧ FirstWith (HasData "body") h.Children b post

/-- The steps up to `main` find a match, and `m` is the node called `mainNode`. -/
def ReachesMain (root m : Node) : Prop :=
  ∃ b post, ReachesBody root b ∧ FirstWith (HasData "main") b.Children m post

/-- The steps up to the table container find a match, and `t` is the node called `gsvNode`. -/
def ReachesTable (root t : Node) : Prop :=
  ∃ m post, ReachesMain root m ∧ FirstWith (HasID "gsv") m.Children t post

/-- The steps up to the inner container find a match, and `d` is the node called `innerDiv`. -/
def ReachesInner (root d : Node) : Prop :=
  ∃ t post, ReachesTable root t ∧ FirstWith (HasData "div") t.Children d post

/-- The steps of the navigation after the `html` step. -/
inductive Step where
  | body
  | main
  | table
  | inner
  | row
  deriving DecidableEq, Repr

/-- The error message of each step (lines 118, 123, 128, 133, 139). -/
def Step.message : Step → String
  | .body => "missing 'body' tag on the page"
  | .main => "can not find 'main' tag on the page"
  | .table => "can not find the schedule table on the page"
  | .inner => "unexpected schedule table structure"
  | .row => "can not find a row for the requested group number"

/-- All the steps before `step` find a match and `step` finds no matching direct child. -/
def MissingAt (group : Int) (root : Node) : Step → Prop
  | .body => ∃ h, ReachesHtml root h ∧ NoneWith (HasData "body") h.Children
  | .main => ∃ b, ReachesBody root b ∧ NoneWith (HasData "main") b.Children
  | .table => ∃ m, ReachesMain root m ∧ NoneWith (HasID "gsv") m.Children
  | .inner => ∃ t, ReachesTable root t ∧ NoneWith (HasData "div") t.Children
  | .row => ∃ d, ReachesInner root d ∧ NoneWith (HasID ("inf" ++ toString group)) d.Children

/-- A world in which the page is fetched with status 200 and parsed into `root`. -/
def pageWorld (root : Node) : World where
  Get := fun _ => .ok ⟨200, .ok ""⟩
  Parse := fun _ => .ok root
  LoadLocation := fun _ => .ok ()
  Now := 0

/-- A document node. -/
def document (children : List Node) : Node := .mk .DocumentNode "" [] children

/-- The node of `<!DOCTYPE html>`. -/
def doctypeHtml : Node := .mk .DoctypeNode "html" [] []

/-- An attribute `id`. -/
def idAttr (v : String) : Attribute := ⟨"", "id", v⟩

/-- A parsed page whose `body` has no `main` child. -/
def pageWithoutMain : Node :=
  document [doctypeHtml, element "html" [] [element "head" [] [], element "body" [] [element "div" [] []]]]

/-- The node `n` is an element with the tag `tag`. -/
def IsElement (tag : String) (n : Node) : Prop := n.Typ = .ElementNode ∧ n.Data = tag

/-- The document shape of claim C8, word for word: a document node whose children are the
doctype `html` and the element `html`, which has a direct `body` child, that has a direct
`main` child, that has a direct child with id `gsv`, that has a direct `div` child, that
has a direct child with id `inf` followed by the digits of the group. -/
def HasDirectPath (group : Int) (root : Node) : Prop :=
  root.Typ = .DocumentNode ∧
  ∃ dt h, root.Children = [dt, h] ∧ (dt.Typ = .DoctypeNode ∧ dt.Data = "html") ∧
    IsElement "html" h ∧
    ∃ b ∈ h.Children, IsElement "body" b ∧
    ∃ m ∈ b.Children, IsElement "main" m ∧
    ∃ t ∈ m.Children, HasID "gsv" t ∧
    ∃ d ∈ t.Children, IsElement "div" d ∧
    ∃ r ∈ d.Children, HasID ("inf" ++ toString group) r

/-- The row of group 3 used in the examples. -/
def rowInf3 : Node := element "div" [idAttr "inf3"] [cellOff, cellOn]

/-- A parsed page in which the table container has two `div` children and the row of
group 3 is in the second one. -/
def pageTwoDivs : Node :=
  document [doctypeHtml, element "html" [] [element "head" [] [],
    element "body" [] [element "main" [] [element "div" [idAttr "gsv"]
      [element "div" [] [], element "div" [] [rowInf3]]]]]]

/-- A parsed page with the whole path to the row of group 3. -/
def pageGroup3 : Node :=
  document [doctypeHtml, element "html" [] [element "head" [] [],
    element "body" [] [element "main" [] [element "div" [idAttr "gsv"]
      [element "div" [] [rowInf3]]]]]]

/-- A cell element without any child node. -/
def emptyCell : Node := element "td" [] []

/-- The message of the validation error (line 98), with the two bounds formatted. -/
def invalidGroupMessage : String := "invalid group number, must be within [1, 18] range"

/-- A world without network, whose clock shows `now`. -/
def clockWorld (now : Time) : World where
  Get := fun _ => .error "network is unreachable"
  Parse := fun _ => .error "no page"
  LoadLocation := fun _ => .ok ()
  Now := now

/-- Length of a civil day without a change of offset, in nanoseconds. -/
def Day : Int := 24 * Hour

/-- Start of hour 0 of the civil day of `now`, in a zone that stays `offset` nanoseconds
east of UTC during that day. -/
def civilDayStart (offset : Int) (now : Time) : Time := now - (now + offset) % Day

/-- Offset of Europe/Kyiv in winter (EET, UTC+2). -/
def kyivWinterOffset : Int := 2 * Hour

/-- The instant 2024-01-15T10:00:00Z, which is 12:00 in Kyiv. -/
def noonKyiv : Time := 1705312800 * 1000000000

/-- The instant 2024-01-15T11:00:00Z, which is 13:00 in Kyiv. -/
def onePmKyiv : Time := 1705316400 * 1000000000

/-- The instant 2024-01-14T22:00:00Z, which is 2024-01-15 00:00 in Kyiv. -/
def midnightKyiv : Time := 1705269600 * 1000000000

instance (t : String) (n : Node) : Decidable (HasData t n) :=
  inferInstanceAs (Decidable (n.Data = t))

instance (v : String) (n : Node) : Decidable (HasID v n) :=
  inferInstanceAs (Decidable (getElementIDLoop n.Attr = v))

instance (tag : String) (n : Node) : Decidable (IsElement tag n) :=
  inferInstanceAs (Decidable (n.Typ = .ElementNode ∧ n.Data = tag))

/-! ## Stating what the scan does -/

/-- Expression `groupColumn.FirstChild.Data` of line 151: the data string of the first
child of a cell; `none` when the cell has no child (the read is a nil dereference). -/
def firstChildData (c : Node) : Option String :=
  match c.Children with
  | [] => none
  | firstChild :: _ => some firstChild.Data

/-- Test of line 151 on the text of a cell: `true` when the cell is classified power off. -/
def isOffText (data : String) : Bool := decide (TrimSpace data ≠ tableValuePowerIsOn)

/-- Lines 169-170: the hour cursor moves on to the next cell. -/
def advance (s : ScanState) : ScanState :=
  { s with startTime := s.endTime, endTime := Time.Add s.endTime (1 * Hour) }

/-- The loop of lines 150-171 run on the texts of the cells, for cells that all have a
first child. -/
def scanTexts : String → List String → ScanState → ScanState
  | d, [], s => scanCell d s
  | d, d1 :: ds, s => scanTexts d1 ds (advance (scanCell d s))

/-- Number of indices `k` in `1..n-1` such that cell `k-1` is classified power off and
cell `k` power on; `off` lists, cell by cell, whether the cell is classified power off. -/
def offToOnTransitions (off : List Bool) : Nat :=
  (List.range off.length).countP
    (fun k => decide (1 ≤ k) && off.getD (k - 1) false && !(off.getD k false))

/-- Number of cells of `off` that close an interval, when `openNow` tells whether an
interval is open before the first of them. -/
def closings (openNow : Bool) : List Bool → Nat
  | [] => 0
  | off :: rest => (if openNow && !off then 1 else 0) + closings off rest

/-- The state in which the scan starts (lines 142-147). -/
def initialState (T0 : Time) : ScanState :=
  ⟨[], T0, Time.Add T0 (1 * Hour), ⟨none, none⟩⟩

/-- The direct children of a node as pointers, in sibling order: each child with its
following siblings. -/
def childRefs : List Node → List NodeRef
  | [] => []
  | c :: rest => ⟨c, rest⟩ :: childRefs rest

/-- A parsed page `<!DOCTYPE html><html></html>` before the parser adds `head` and `body`:
a document node with the doctype and the `html` element. -/
def pageDoctypeAndHtml : Node := document [doctypeHtml, element "html" [] []]

/-- A node whose only child is a `div` that holds a `main` element: `main` is a deeper
descendant, not a direct child. -/
def nestedMain : Node := element "body" [] [element "div" [] [element "main" [] []]]

/-- A parsed page without doctype: the `html` element is the only child of the root, and
it holds the whole path to the row of group 3. -/
def pageWithoutDoctype : Node :=
  document [element "html" [] [element "head" [] [],
    element "body" [] [element "main" [] [element "div" [idAttr "gsv"]
      [element "div" [] [rowInf3]]]]]]

/-- Classification of a cell by line 151: `none` when the cell has no child, `some true`
when it is classified power off, `some false` when it is classified power on. -/
def cellStatus (c : Node) : Option Bool := (firstChildData c).map isOffText

/-- A cell whose first child is a `span` element that wraps the text "з". -/
def spanCell : Node := element "td" [] [element "span" [] [textNode "з"]]

/-- Lines 153-155: what the scan does with a cell classified power off. -/
def offBranch (s : ScanState) : ScanState :=
  if s.currTimeblock.StartAt = none then
    { s with currTimeblock := { s.currTimeblock with StartAt := some Var.startTime } }
  else s

/-- Lines 157-162: what the scan does with a cell classified power on. -/
def onBranch (s : ScanState) : ScanState :=
  if s.currTimeblock.StartAt ≠ none then
    { s with
      blackouts := s.blackouts ++ [{ s.currTimeblock with EndAt := some Var.startTime }],
      currTimeblock := ⟨none, none⟩ }
  else s

/-- The text `s` with leading and trailing white space removed equals the sentinel: `s` is
the sentinel with white space before and after it. -/
def IsPaddedSentinel (s : String) : Prop :=
  ∃ pre post : List Char, (∀ c ∈ pre, isSpace c = true) ∧ (∀ c ∈ post, isSpace c = true) ∧
    s.data = pre ++ tableValuePowerIsOn.data ++ post

/-- A state of the scan with an interval open. -/
def openState : ScanState := ⟨[], 0, Hour, ⟨some Var.startTime, none⟩⟩

/-! ## Lemmas on the cells -/

theorem trimSpace_on : TrimSpace "з" = "з" := by decide

theorem trimSpace_off : TrimSpace "в" ≠ "з" := by decide

/-! ## The scan on the rows of the specification -/

/-- C1 (the code departs from the claim): for every anchor `T0`, on the row
`[on, off, off, on]` the scan returns one `Timeblock` whose `StartAt` and `EndAt` are both
the address of the variable `startTime`; read after the return the interval is
`[T0+3h, T0+3h]`, and not `[T0+1h, T0+3h]` as the claim requires. -/
theorem C1_on_off_off_on_reads_last_hour (T0 : Time) :
    scan (rowOf [cellOn, cellOff, cellOff, cellOn]) T0
      = .returned ([⟨some Var.startTime, some Var.startTime⟩], T0 + 3 * Hour) ∧
    scanRead (rowOf [cellOn, cellOff, cellOff, cellOn]) T0
      = .returned [(some (T0 + 3 * Hour), some (T0 + 3 * Hour))] ∧
    scanRead (rowOf [cellOn, cellOff, cellOff, cellOn]) T0
      ≠ .returned [(some (T0 + 1 * Hour), some (T0 + 3 * Hour))] := by
  have h : scan (rowOf [cellOn, cellOff, cellOff, cellOn]) T0
      = .returned ([⟨some Var.startTime, some Var.startTime⟩], T0 + 3 * Hour) := by
    simp [scan, rowOf, NodeRef.FirstChild, element, Node.Children, scanLoop, cellOn, cellOff,
      cell, textNode, Node.Data, scanCell, trimSpace_on, trimSpace_off, tableValuePowerIsOn,
      Time.Add]
    ring
  refine ⟨h, ?_, ?_⟩
  · simp [scanRead, h, Outcome.map, readScan, readBlock, Memory.load]
  · simp [scanRead, h, Outcome.map, readScan, readBlock, Memory.load, Hour]

/-- C3 (the code departs from the claim): for every anchor `T0`, on the row `[off, on]`
the scan returns one `Timeblock` with `StartAt` and `EndAt` both non-nil, and both read
`T0+1h` after the return: the start is not strictly earlier than the end. -/
theorem C3_off_on_start_equals_end (T0 : Time) :
    scan (rowOf [cellOff, cellOn]) T0
      = .returned ([⟨some Var.startTime, some Var.startTime⟩], T0 + 1 * Hour) ∧
    scanRead (rowOf [cellOff, cellOn]) T0
      = .returned [(some (T0 + 1 * Hour), some (T0 + 1 * Hour))] ∧
    ¬ (T0 + 1 * Hour < T0 + 1 * Hour) := by
  have h : scan (rowOf [cellOff, cellOn]) T0
      = .returned ([⟨some Var.startTime, some Var.startTime⟩], T0 + 1 * Hour) := by
    simp [scan, rowOf, NodeRef.FirstChild, element, Node.Children, scanLoop, cellOn, cellOff,
      cell, textNode, Node.Data, scanCell, trimSpace_on, trimSpace_off, tableValuePowerIsOn,
      Time.Add]
  refine ⟨h, ?_, lt_irrefl _⟩
  simp [scanRead, h, Outcome.map, readScan, readBlock, Memory.load]

/-- C9 (the code departs from the claim): for every anchor `T0`, on the row
`[off, on, off, on]` the scan returns two intervals that both read `[T0+3h, T0+3h]` after
the return: the earlier one does not start before the later one starts. -/
theorem C9_off_on_off_on_same_instants (T0 : Time) :
    scanRead (rowOf [cellOff, cellOn, cellOff, cellOn]) T0
      = .returned [(some (T0 + 3 * Hour), some (T0 + 3 * Hour)),
                   (some (T0 + 3 * Hour), some (T0 + 3 * Hour))] ∧
    ¬ (T0 + 3 * Hour < T0 + 3 * Hour) := by
  have h : scan (rowOf [cellOff, cellOn, cellOff, cellOn]) T0
      = .returned ([⟨some Var.startTime, some Var.startTime⟩,
          ⟨some Var.startTime, some Var.startTime⟩], T0 + 3 * Hour) := by
    simp [scan, rowOf, NodeRef.FirstChild, element, Node.Children, scanLoop, cellOn, cellOff,
      cell, textNode, Node.Data, scanCell, trimSpace_on, trimSpace_off, tableValuePowerIsOn,
      Time.Add]
    ring
  refine ⟨?_, lt_irrefl _⟩
  simp [scanRead, h, Outcome.map, readScan, readBlock, Memory.load]

/-! ## Lemmas on the lookups -/

theorem findLoop_first (q : Node → Bool) (x : Node) (post : List Node) (hx : q x = true) :
    ∀ (pre : List Node) (c : Node) (rest : List Node), (∀ n ∈ pre, q n = false) →
      c :: rest = pre ++ x :: post → findLoop (fun r => q r.node) c rest = some ⟨x, post⟩
  | [], c, rest, _, h => by
    simp at h
    obtain ⟨rfl, rfl⟩ := h
    unfold findLoop
    simp [hx]
  | p :: pre, c, rest, hpre, h => by
    simp at h
    obtain ⟨rfl, rfl⟩ := h
    have hc : q c = false := hpre c (by simp)
    have ih := findLoop_first q x post hx pre
    unfold findLoop
    simp only [hc]
    cases hr : pre ++ x :: post with
    | nil => simp at hr
    | cons c1 rest1 =>
      simp
      exact ih c1 rest1 (fun n hn => hpre n (by simp [hn])) hr.symm

theorem findLoop_none (q : Node → Bool) :
    ∀ (rest : List Node) (c : Node), (∀ n ∈ c :: rest, q n = false) →
      findLoop (fun r => q r.node) c rest = none
  | [], c, h => by
    unfold findLoop
    simp [h c (by simp)]
  | c1 :: rest1, c, h => by
    unfold findLoop
    simp [h c (by simp)]
    exact findLoop_none q rest1 c1 (fun n hn => h n (by simp at hn ⊢; tauto))

theorem findChild_first (q : Node → Bool) (node : NodeRef) (x : Node) (post : List Node)
    (h : FirstWith (fun n => q n = true) node.node.Children x post) :
    findChildByCriteriaFunc node (fun r => q r.node) = some ⟨x, post⟩ := by
  obtain ⟨pre, hl, hpre, hx⟩ := h
  unfold findChildByCriteriaFunc NodeRef.FirstChild
  cases hc : node.node.Children with
  | nil => rw [hc] at hl; simp at hl
  | cons c rest =>
    simp
    exact findLoop_first q x post hx pre c rest (fun n hn => by simpa using hpre n hn)
      (by rw [← hc, hl])

theorem findChild_none (q : Node → Bool) (node : NodeRef)
    (h : NoneWith (fun n => q n = true) node.node.Children) :
    findChildByCriteriaFunc node (fun r => q r.node) = none := by
  unfold findChildByCriteriaFunc NodeRef.FirstChild
  cases hc : node.node.Children with
  | nil => simp
  | cons c rest =>
    simp
    exact findLoop_none q rest c (fun n hn => by simpa using h n (by rw [hc]; exact hn))

theorem ofType_first (node : NodeRef) (t : String) (x : Node) (post : List Node)
    (h : FirstWith (HasData t) node.node.Children x post) :
    findChildElementOfType node t = some ⟨x, post⟩ := by
  apply findChild_first (fun n => decide (n.Data = t)) node x post
  simpa [FirstWith, HasData] using h

theorem ofType_none (node : NodeRef) (t : String)
    (h : NoneWith (HasData t) node.node.Children) :
    findChildElementOfType node t = none := by
  apply findChild_none (fun n => decide (n.Data = t)) node
  simpa [NoneWith, HasData] using h

theorem withID_first (node : NodeRef) (v : String) (x : Node) (post : List Node)
    (h : FirstWith (HasID v) node.node.Children x post) :
    findChildElementWithID node v = some ⟨x, post⟩ := by
  apply findChild_first (fun n => decide (getElementIDLoop n.Attr = v)) node x post
  simpa [FirstWith, HasID] using h

theorem withID_none (node : NodeRef) (v : String)
    (h : NoneWith (HasID v) node.node.Children) :
    findChildElementWithID node v = none := by
  apply findChild_none (fun n => decide (getElementIDLoop n.Attr = v)) node
  simpa [NoneWith, HasID] using h

/-! ## The navigation -/

theorem navigate_of_reachesHtml (root h : Node) (group : Int) (hh : ReachesHtml root h) :
    ∃ post, ∀ sib, navigate ⟨root, sib⟩ group =
      (match findChildElementOfType ⟨h, post⟩ "body" with
      | none => .returned (.error "missing 'body' tag on the page")
      | some bodyNode =>
      match findChildElementOfType bodyNode "main" with
      | none => .returned (.error "can not find 'main' tag on the page")
      | some mainNode =>
      match findChildElementWithID mainNode "gsv" with
      | none => .returned (.error "can not find the schedule table on the page")
      | some gsvNode =>
      match findChildElementOfType gsvNode "div" with
      | none => .returned (.error "unexpected schedule table structure")
      | some innerDiv =>
      match findChildElementWithID innerDiv ("inf" ++ toString group) with
      | none => .returned (.error "can not find a row for the requested group number")
      | some groupRow => .returned (.ok groupRow)) := by
  obtain ⟨x, post, hx⟩ := hh
  refine ⟨post, fun sib => ?_⟩
  have h1 := ofType_first ⟨root, sib⟩ "html" x (h :: post) hx
  simp only [navigate, h1, NodeRef.NextSibling]

theorem navigate_of_reachesBody (root b : Node) (group : Int) (hb : ReachesBody root b) :
    ∃ post, ∀ sib, navigate ⟨root, sib⟩ group =
      (match findChildElementOfType ⟨b, post⟩ "main" with
      | none => .returned (.error "can not find 'main' tag on the page")
      | some mainNode =>
      match findChildElementWithID mainNode "gsv" with
      | none => .returned (.error "can not find the schedule table on the page")
      | some gsvNode =>
      match findChildElementOfType gsvNode "div" with
      | none => .returned (.error "unexpected schedule table structure")
      | some innerDiv =>
      match findChildElementWithID innerDiv ("inf" ++ toString group) with
      | none => .returned (.error "can not find a row for the requested group number")
      | some groupRow => .returned (.ok groupRow)) := by
  obtain ⟨h, post, hh, hx⟩ := hb
  obtain ⟨hpost, hnav⟩ := navigate_of_reachesHtml root h group hh
  refine ⟨post, fun sib => ?_⟩
  rw [hnav sib, ofType_first ⟨h, hpost⟩ "body" b post hx]

theorem navigate_of_reachesMain (root m : Node) (group : Int) (hm : ReachesMain root m) :
    ∃ post, ∀ sib, navigate ⟨root, sib⟩ group =
      (match findChildElementWithID ⟨m, post⟩ "gsv" with
      | none => .returned (.error "can not find the schedule table on the page")
      | some gsvNode =>
      match findChildElementOfType gsvNode "div" with
      | none => .returned (.error "unexpected schedule table structure")
      | some innerDiv =>
      match findChildElementWithID innerDiv ("inf" ++ toString group) with
      | none => .returned (.error "can not find a row for the requested group number")
      | some groupRow => .returned (.ok groupRow)) := by
  obtain ⟨b, post, hb, hx⟩ := hm
  obtain ⟨bpost, hnav⟩ := navigate_of_reachesBody root b group hb
  refine ⟨post, fun sib => ?_⟩
  rw [hnav sib, ofType_first ⟨b, bpost⟩ "main" m post hx]

theorem navigate_of_reachesTable (root t : Node) (group : Int) (ht : ReachesTable root t) :
    ∃ post, ∀ sib, navigate ⟨root, sib⟩ group =
      (match findChildElementOfType ⟨t, post⟩ "div" with
      | none => .returned (.error "unexpected schedule table structure")
      | some innerDiv =>
      match findChildElementWithID innerDiv ("inf" ++ toString group) with
      | none => .returned (.error "can not find a row for the requested group number")
      | some groupRow => .returned (.ok groupRow)) := by
  obtain ⟨m, post, hm, hx⟩ := ht
  obtain ⟨mpost, hnav⟩ := navigate_of_reachesMain root m group hm
  refine ⟨post, fun sib => ?_⟩
  rw [hnav sib, withID_first ⟨m, mpost⟩ "gsv" t post hx]

theorem navigate_of_reachesInner (root d : Node) (group : Int) (hd : ReachesInner root d) :
    ∃ post, ∀ sib, navigate ⟨root, sib⟩ group =
      (match findChildElementWithID ⟨d, post⟩ ("inf" ++ toString group) with
      | none => .returned (.error "can not find a row for the requested group number")
      | some groupRow => .returned (.ok groupRow)) := by
  obtain ⟨t, post, ht, hx⟩ := hd
  obtain ⟨tpost, hnav⟩ := navigate_of_reachesTable root t group ht
  refine ⟨post, fun sib => ?_⟩
  rw [hnav sib, ofType_first ⟨t, tpost⟩ "div" d post hx]

theorem navigate_of_missingAt (root : Node) (group : Int) (step : Step)
    (hmiss : MissingAt group root step) :
    navigate ⟨root, []⟩ group = .returned (.error step.message) := by
  cases step with
  | body =>
    obtain ⟨h, hh, hn⟩ := hmiss
    obtain ⟨post, hnav⟩ := navigate_of_reachesHtml root h group hh
    rw [hnav [], ofType_none ⟨h, post⟩ "body" hn]
    rfl
  | main =>
    obtain ⟨b, hb, hn⟩ := hmiss
    obtain ⟨post, hnav⟩ := navigate_of_reachesBody root b group hb
    rw [hnav [], ofType_none ⟨b, post⟩ "main" hn]
    rfl
  | table =>
    obtain ⟨m, hm, hn⟩ := hmiss
    obtain ⟨post, hnav⟩ := navigate_of_reachesMain root m group hm
    rw [hnav [], withID_none ⟨m, post⟩ "gsv" hn]
    rfl
  | inner =>
    obtain ⟨t, ht, hn⟩ := hmiss
    obtain ⟨post, hnav⟩ := navigate_of_reachesTable root t group ht
    rw [hnav [], ofType_none ⟨t, post⟩ "div" hn]
    rfl
  | row =>
    obtain ⟨d, hd, hn⟩ := hmiss
    obtain ⟨post, hnav⟩ := navigate_of_reachesInner root d group hd
    rw [hnav [], withID_none ⟨d, post⟩ ("inf" ++ toString group) hn]
    rfl

/-- C7: for each of the steps body, main, table container, inner container and group row:
when the group is valid, the page is fetched and parsed, all earlier steps find a match and
that step finds no matching direct child, `LoadBlackouts` returns a nil schedule and the
error message of that step; and the messages of the steps are pairwise distinct. -/
theorem C7_missing_step_returns_its_error (w : World) (group : Int) (page : String)
    (root : Node) (step : Step)
    (hgroup : 1 ≤ group ∧ group ≤ 18)
    (hpage : loadBlackoutsPage w = .ok page) (hparse : w.Parse page = .ok root)
    (hmiss : MissingAt group root step) :
    LoadBlackouts w group = .returned ⟨[], some step.message, ⟨none⟩⟩ ∧
    (∀ s1 s2 : Step, s1.message = s2.message → s1 = s2) := by
  constructor
  · have hv : ¬ (group < minGroupNumber ∨ group > maxGroupNumber) := by
      simp only [minGroupNumber, maxGroupNumber]; omega
    simp only [LoadBlackouts, hv, if_false, hpage, hparse,
      navigate_of_missingAt root group step hmiss]
  · intro s1 s2
    cases s1 <;> cases s2 <;> decide

/-- Witness of C7: a page whose `body` has no `main` child yields
"can not find 'main' tag on the page". -/
theorem C7_missing_step_returns_its_error_witness :
    LoadBlackouts (pageWorld pageWithoutMain) 3
      = .returned ⟨[], some "can not find 'main' tag on the page", ⟨none⟩⟩ :=
  (C7_missing_step_returns_its_error (pageWorld pageWithoutMain) 3 "" pageWithoutMain Step.main
    ⟨by decide, by decide⟩ rfl rfl
    ⟨element "body" [] [element "div" [] []],
      ⟨element "html" [] [element "head" [] [], element "body" [] [element "div" [] []]], [],
        ⟨doctypeHtml, [], [], rfl, (fun _ hc => by cases hc), rfl⟩,
        [element "head" [] []], rfl,
        fun c hc => by
          rw [List.mem_singleton] at hc
          subst hc
          show ¬ ("head" = "body")
          decide,
        rfl⟩,
      fun c hc => by
        have hc1 : c ∈ [element "div" [] []] := hc
        rw [List.mem_singleton] at hc1
        subst hc1
        show ¬ ("div" = "main")
        decide⟩).1

/-- C8 (counterexample): the page `pageTwoDivs` has the shape the claim describes for
group 3 (the second `div` of the table container holds the row `inf3`), and the navigation
ends in the error branch of the group row, because it only looks into the first `div`. -/
theorem C8_counterexample :
    (1 ≤ (3 : Int) ∧ (3 : Int) ≤ 18) ∧ HasDirectPath 3 pageTwoDivs ∧
    navigate ⟨pageTwoDivs, []⟩ 3
      = .returned (.error "can not find a row for the requested group number") := by
  refine ⟨by decide, ?_, by rfl⟩
  refine ⟨rfl, doctypeHtml, _, rfl, ⟨rfl, rfl⟩, ⟨rfl, rfl⟩, ?_⟩
  refine ⟨element "body" [] [element "main" [] [element "div" [idAttr "gsv"]
      [element "div" [] [], element "div" [] [rowInf3]]]], ?_, ⟨rfl, rfl⟩, ?_⟩
  · exact List.mem_cons_of_mem _ (List.mem_singleton.2 rfl)
  refine ⟨element "main" [] [element "div" [idAttr "gsv"]
      [element "div" [] [], element "div" [] [rowInf3]]], List.mem_singleton.2 rfl,
      ⟨rfl, rfl⟩, ?_⟩
  refine ⟨element "div" [idAttr "gsv"] [element "div" [] [], element "div" [] [rowInf3]],
      List.mem_singleton.2 rfl, by decide, ?_⟩
  refine ⟨element "div" [] [rowInf3], List.mem_cons_of_mem _ (List.mem_singleton.2 rfl),
      ⟨rfl, rfl⟩, ?_⟩
  exact ⟨rowInf3, List.mem_singleton.2 rfl, by decide⟩

/-- C8 (amended): for every group `g` and every document tree whose root has the children
[doctype `html`, element `html`], where the first direct child of the `html` element with
data `body`, then its first direct child with data `main`, then its first direct child
with id `gsv`, then its first direct child with data `div` exist, and this `div` has a
direct child with id `inf` followed by the digits of `g`: the navigation reaches no error
branch and selects the first such child `r` (with its following siblings) as the row. -/
theorem C8_first_matches_lead_to_row (group : Int) (root dt h b m t d r : Node)
    (pb pm pt pd pr : List Node)
    (hroot : root.Children = [dt, h])
    (hdt : dt.Typ = .DoctypeNode ∧ dt.Data = "html")
    (hh : IsElement "html" h)
    (hb : FirstWith (HasData "body") h.Children b pb)
    (hm : FirstWith (HasData "main") b.Children m pm)
    (ht : FirstWith (HasID "gsv") m.Children t pt)
    (hd : FirstWith (HasData "div") t.Children d pd)
    (hr : FirstWith (HasID ("inf" ++ toString group)) d.Children r pr) :
    navigate ⟨root, []⟩ group = .returned (.ok ⟨r, pr⟩) := by
  have _hh := hh
  have h1 : ReachesHtml root h := ⟨dt, [], [], hroot, (fun _ hc => by cases hc), hdt.2⟩
  have h5 : ReachesInner root d := ⟨t, pd, ⟨m, pt, ⟨b, pm, ⟨h, pb, h1, hb⟩, hm⟩, ht⟩, hd⟩
  obtain ⟨post, hnav⟩ := navigate_of_reachesInner root d group h5
  rw [hnav [], withID_first ⟨d, post⟩ ("inf" ++ toString group) r pr hr]

/-- Witness of C8 (amended): the page `pageGroup3` and group 3. -/
theorem C8_first_matches_lead_to_row_witness :
    navigate ⟨pageGroup3, []⟩ 3 = .returned (.ok ⟨rowInf3, []⟩) :=
  C8_first_matches_lead_to_row 3 pageGroup3 doctypeHtml
    (element "html" [] [element "head" [] [],
      element "body" [] [element "main" [] [element "div" [idAttr "gsv"]
        [element "div" [] [rowInf3]]]]])
    (element "body" [] [element "main" [] [element "div" [idAttr "gsv"]
        [element "div" [] [rowInf3]]]])
    (element "main" [] [element "div" [idAttr "gsv"] [element "div" [] [rowInf3]]])
    (element "div" [idAttr "gsv"] [element "div" [] [rowInf3]])
    (element "div" [] [rowInf3]) rowInf3 [] [] [] [] []
    rfl ⟨rfl, rfl⟩ ⟨rfl, rfl⟩
    ⟨[element "head" [] []], rfl,
      (fun c hc => by
        rw [List.mem_singleton] at hc
        subst hc
        show ¬ ("head" = "body")
        decide), rfl⟩
    ⟨[], rfl, (fun _ hc => by cases hc), rfl⟩
    ⟨[], rfl, (fun _ hc => by cases hc), by decide⟩
    ⟨[], rfl, (fun _ hc => by cases hc), rfl⟩
    ⟨[], rfl, (fun _ hc => by cases hc), by decide⟩

/-! ## Cells without a child -/

theorem scanLoop_childless (c : Node) (post : List Node) (hc : c.Children = []) :
    ∀ (pre : List Node) (x : Node) (rest : List Node) (s : ScanState),
      x :: rest = pre ++ c :: post → (∀ n ∈ pre, n.Children ≠ []) →
      scanLoop x rest s = .nilDereference
  | [], x, rest, s, h, _ => by
    simp at h
    obtain ⟨rfl, rfl⟩ := h
    unfold scanLoop
    simp [hc]
  | p :: pre, x, rest, s, h, hpre => by
    simp at h
    obtain ⟨rfl, rfl⟩ := h
    have hx : x.Children ≠ [] := hpre x (by simp)
    have ih := scanLoop_childless c post hc pre
    unfold scanLoop
    cases hxc : x.Children with
    | nil => exact absurd hxc hx
    | cons fc _ =>
      cases hr : pre ++ c :: post with
      | nil => simp at hr
      | cons x1 rest1 =>
        simp only []
        exact ih x1 rest1 _ hr.symm (fun n hn => hpre n (by simp [hn]))

/-- C6 (the code departs from the claim): for every row that contains a cell `c` without a
child node, the cells before it having one, and every anchor, the scan stops with a
nil-pointer dereference at that cell (`groupColumn.FirstChild.Data`, line 151): it returns
neither a structural error nor anything else. -/
theorem C6_childless_cell_nil_dereference (groupRow : NodeRef) (T0 : Time)
    (pre : List Node) (c : Node) (post : List Node)
    (hrow : groupRow.node.Children = pre ++ c :: post)
    (hpre : ∀ n ∈ pre, n.Children ≠ [])
    (hc : c.Children = []) :
    scan groupRow T0 = .nilDereference := by
  unfold scan NodeRef.FirstChild
  cases hch : groupRow.node.Children with
  | nil => rfl
  | cons x rest =>
    simp only []
    rw [scanLoop_childless c post hc pre x rest _ (by rw [← hch, hrow]) hpre]

/-- Witness of C6: the row `[off, <td></td>, on]`. -/
theorem C6_childless_cell_nil_dereference_witness :
    scan (rowOf [cellOff, emptyCell, cellOn]) 0 = .nilDereference :=
  C6_childless_cell_nil_dereference (rowOf [cellOff, emptyCell, cellOn]) 0
    [cellOff] emptyCell [cellOn] rfl
    (fun n hn => by
      rw [List.mem_singleton] at hn
      subst hn
      intro hcon
      cases hcon)
    rfl

/-! ## Validation of the group number -/

theorem append_ne_of_first_char (a s t : String) (c d : Char) (cs ds : List Char)
    (ha : a.data = c :: cs) (ht : t.data = d :: ds) (hcd : c ≠ d) : a ++ s ≠ t := by
  intro h
  have hdata := congrArg String.data h
  rw [String.data_append, ha, ht] at hdata
  simp at hdata
  exact hcd hdata.1

theorem navigate_error_ne_invalid (rootNode : NodeRef) (group : Int) (msg : String)
    (h : navigate rootNode group = .returned (.error msg)) : msg ≠ invalidGroupMessage := by
  simp only [navigate] at h
  repeat' (split at h)
  all_goals (cases h; try decide)

/-- C4: `LoadBlackouts(group)` returns the error "invalid group number, ..." if and only if
`group < 1` or `group > 18`; in that case the schedule is nil and the result is the same in
every world (no page is fetched); and a group in 1..18 passes validation and goes on to
fetch the page, so that a failed fetch is what it reports. -/
theorem C4_invalid_group_iff_out_of_range (w : World) (group : Int) :
    ((∃ r, LoadBlackouts w group = .returned r ∧ r.err = some invalidGroupMessage)
      ↔ (group < 1 ∨ group > 18)) ∧
    ((group < 1 ∨ group > 18) → ∀ w2 : World,
      LoadBlackouts w2 group = .returned ⟨[], some invalidGroupMessage, ⟨none⟩⟩) ∧
    ((1 ≤ group ∧ group ≤ 18) → ∀ e, loadBlackoutsPage w = .error e →
      LoadBlackouts w group = .returned ⟨[], some ("load blackouts page: " ++ e), ⟨none⟩⟩) := by
  have hout : (group < 1 ∨ group > 18) → ∀ w2 : World,
      LoadBlackouts w2 group = .returned ⟨[], some invalidGroupMessage, ⟨none⟩⟩ := by
    intro hg w2
    have hv : group < minGroupNumber ∨ group > maxGroupNumber := hg
    simp only [LoadBlackouts, hv, if_true]
    rfl
  refine ⟨⟨?_, fun hg => ⟨_, hout hg w, rfl⟩⟩, hout, ?_⟩
  · rintro ⟨r, hr, herr⟩
    by_contra hg
    have hv : ¬ (group < minGroupNumber ∨ group > maxGroupNumber) := hg
    simp only [LoadBlackouts, hv, if_false] at hr
    split at hr
    · cases hr
      simp only [Option.some.injEq] at herr
      exact append_ne_of_first_char "load blackouts page: " _ invalidGroupMessage
        'l' 'i' _ _ rfl rfl (by decide) herr
    · split at hr
      · cases hr
        simp only [Option.some.injEq] at herr
        exact append_ne_of_first_char "parse page HTML: " _ invalidGroupMessage
          'p' 'i' _ _ rfl rfl (by decide) herr
      · split at hr
        · cases hr
        · cases hr
        · rename_i msg hnav
          cases hr
          simp only [Option.some.injEq] at herr
          exact navigate_error_ne_invalid _ _ _ hnav herr
        · split at hr
          · cases hr
          · cases hr
          · split at hr
            · cases hr
            · cases hr
            · cases hr
              cases herr
  · intro hg e he
    have hv : ¬ (group < minGroupNumber ∨ group > maxGroupNumber) := by
      simp only [minGroupNumber, maxGroupNumber]; omega
    simp only [LoadBlackouts, hv, if_false, he]

/-- Witness of C4: group 19 is rejected in a world without network, and group 3 passes
validation there and reports the failed fetch. -/
theorem C4_invalid_group_iff_out_of_range_witness :
    LoadBlackouts (clockWorld 0) 19 = .returned ⟨[], some invalidGroupMessage, ⟨none⟩⟩ ∧
    LoadBlackouts (clockWorld 0) 3 = .returned ⟨[], some ("load blackouts page: " ++
      "send GET request: network is unreachable"), ⟨none⟩⟩ :=
  ⟨(C4_invalid_group_iff_out_of_range (clockWorld 0) 19).2.1 (by decide) (clockWorld 0),
   (C4_invalid_group_iff_out_of_range (clockWorld 0) 3).2.2 (by decide)
      "send GET request: network is unreachable" rfl⟩

/-! ## The anchor -/

/-- C10 (the code departs from the claim): whenever `dayStartTimeCV` returns, it returns the
current instant itself (`time.Now().In(loc)`), not the start of hour 0 of the civil day. At
12:00 and at 13:00 Kyiv time of 2024-01-15, whose civil day starts at `midnightKyiv`, the
anchors are these two instants: neither is the day start and they differ. -/
theorem C10_anchor_is_current_instant :
    (∀ w : World, dayStartTimeCV w = .returned w.Now ∨ ∃ msg, dayStartTimeCV w = .fatal msg) ∧
    civilDayStart kyivWinterOffset noonKyiv = midnightKyiv ∧
    civilDayStart kyivWinterOffset onePmKyiv = midnightKyiv ∧
    dayStartTimeCV (clockWorld noonKyiv) = .returned noonKyiv ∧
    dayStartTimeCV (clockWorld onePmKyiv) = .returned onePmKyiv ∧
    dayStartTimeCV (clockWorld noonKyiv) ≠ .returned midnightKyiv ∧
    dayStartTimeCV (clockWorld noonKyiv) ≠ dayStartTimeCV (clockWorld onePmKyiv) := by
  refine ⟨?_, by decide, by decide, rfl, rfl, by decide, by decide⟩
  intro w
  unfold dayStartTimeCV
  cases w.LoadLocation "Europe/Kyiv" with
  | error err => exact Or.inr ⟨_, rfl⟩
  | ok loc => exact Or.inl rfl

/-! ## The scan on rows of cells that all have a first child -/

theorem scanLoop_wellFormed :
    ∀ (ds : List String) (d : String) (x : Node) (rest : List Node) (s : ScanState),
      firstChildData x = some d → rest.map firstChildData = ds.map some →
      scanLoop x rest s = .returned (scanTexts d ds s)
  | [], d, x, rest, s, hx, hrest => by
    have hr : rest = [] := by simpa using hrest
    subst hr
    unfold scanLoop
    unfold firstChildData at hx
    cases hc : x.Children with
    | nil => rw [hc] at hx; simp at hx
    | cons fc more =>
      rw [hc] at hx
      simp only [Option.some.injEq] at hx
      subst hx
      rfl
  | d1 :: ds, d, x, rest, s, hx, hrest => by
    cases rest with
    | nil => simp at hrest
    | cons x1 rest1 =>
      simp only [List.map_cons, List.cons.injEq] at hrest
      have ih := scanLoop_wellFormed ds d1 x1 rest1
      unfold scanLoop
      unfold firstChildData at hx
      cases hc : x.Children with
      | nil => rw [hc] at hx; simp at hx
      | cons fc more =>
        rw [hc] at hx
        simp only [Option.some.injEq] at hx
        subst hx
        simp only []
        rw [ih _ hrest.1 hrest.2]
        rfl

theorem scan_wellFormed (groupRow : NodeRef) (T0 : Time) (d : String) (ds : List String)
    (h : groupRow.node.Children.map firstChildData = (d :: ds).map some) :
    scan groupRow T0 = .returned ((scanTexts d ds (initialState T0)).blackouts,
      (scanTexts d ds (initialState T0)).startTime) := by
  unfold scan NodeRef.FirstChild
  cases hc : groupRow.node.Children with
  | nil => rw [hc] at h; simp at h
  | cons x rest =>
    rw [hc] at h
    simp only [List.map_cons, List.cons.injEq] at h
    simp only []
    rw [scanLoop_wellFormed ds d x rest _ h.1 h.2]
    rfl

theorem scanCell_times (d : String) (s : ScanState) :
    (scanCell d s).startTime = s.startTime ∧ (scanCell d s).endTime = s.endTime := by
  unfold scanCell
  split_ifs <;> simp

theorem scanTexts_times :
    ∀ (ds : List String) (d : String) (s : ScanState), s.endTime = s.startTime + Hour →
      (scanTexts d ds s).startTime = s.startTime + (ds.length : Int) * Hour
  | [], d, s, _ => by
    simp [scanTexts, (scanCell_times d s).1]
  | d1 :: ds, d, s, h => by
    have ht := scanCell_times d s
    have hadv : (advance (scanCell d s)).endTime = (advance (scanCell d s)).startTime + Hour := by
      simp [advance, Time.Add]
    have ih := scanTexts_times ds d1 (advance (scanCell d s)) hadv
    show (scanTexts d1 ds (advance (scanCell d s))).startTime = _
    rw [ih]
    simp only [advance, ht.2, h, List.length_cons]
    push_cast
    ring

/-- Every block of the slice holds the address of `startTime` twice, and the block being
accumulated has no end yet. -/
theorem scanCell_aliased (d : String) (s : ScanState)
    (hb : ∀ tb ∈ s.blackouts, tb = ⟨some Var.startTime, some Var.startTime⟩)
    (hc : s.currTimeblock.EndAt = none) :
    (∀ tb ∈ (scanCell d s).blackouts, tb = ⟨some Var.startTime, some Var.startTime⟩) ∧
    (scanCell d s).currTimeblock.EndAt = none := by
  unfold scanCell
  split_ifs with h1 h2 h3
  · exact ⟨hb, hc⟩
  · exact ⟨hb, hc⟩
  · refine ⟨?_, rfl⟩
    intro tb htb
    simp only [List.mem_append, List.mem_singleton] at htb
    rcases htb with htb | htb
    · exact hb tb htb
    · subst htb
      cases hs : s.currTimeblock.StartAt with
      | none => exact absurd hs h3
      | some v => cases v; rfl
  · exact ⟨hb, hc⟩

theorem scanTexts_aliased :
    ∀ (ds : List String) (d : String) (s : ScanState),
      (∀ tb ∈ s.blackouts, tb = ⟨some Var.startTime, some Var.startTime⟩) →
      s.currTimeblock.EndAt = none →
      ∀ tb ∈ (scanTexts d ds s).blackouts, tb = ⟨some Var.startTime, some Var.startTime⟩
  | [], d, s, hb, hc => (scanCell_aliased d s hb hc).1
  | d1 :: ds, d, s, hb, hc => by
    have h := scanCell_aliased d s hb hc
    exact scanTexts_aliased ds d1 (advance (scanCell d s)) h.1 h.2

theorem scanCell_open (d : String) (s : ScanState) :
    (scanCell d s).currTimeblock.StartAt ≠ none ↔ isOffText d = true := by
  unfold scanCell isOffText
  split_ifs with h1 h2 h3 <;> simp_all

theorem scanCell_length (d : String) (s : ScanState) (openNow : Bool)
    (ho : s.currTimeblock.StartAt ≠ none ↔ openNow = true) :
    (scanCell d s).blackouts.length
      = s.blackouts.length + (if openNow && !isOffText d then 1 else 0) := by
  unfold scanCell isOffText
  split_ifs with h1 h2 h3 h4 h5 h6 <;> simp_all

theorem scanTexts_length :
    ∀ (ds : List String) (d : String) (s : ScanState) (openNow : Bool),
      (s.currTimeblock.StartAt ≠ none ↔ openNow = true) →
      (scanTexts d ds s).blackouts.length
        = s.blackouts.length + closings openNow ((d :: ds).map isOffText)
  | [], d, s, openNow, ho => by
    simp [scanTexts, closings, scanCell_length d s openNow ho]
  | d1 :: ds, d, s, openNow, ho => by
    have ih := scanTexts_length ds d1 (advance (scanCell d s)) (isOffText d)
      (by simpa [advance] using scanCell_open d s)
    have hl := scanCell_length d s openNow ho
    show (scanTexts d1 ds (advance (scanCell d s))).blackouts.length = _
    rw [ih]
    have hadv : (advance (scanCell d s)).blackouts = (scanCell d s).blackouts := rfl
    rw [hadv, hl]
    simp only [List.map_cons, closings]
    omega

theorem closings_eq_countP :
    ∀ (rest : List Bool) (a : Bool),
      closings a rest = (List.range rest.length).countP
        (fun k => (a :: rest).getD k false && !(rest.getD k false))
  | [], a => by simp [closings]
  | b :: rest, a => by
    rw [closings, closings_eq_countP rest b, List.length_cons, List.range_succ_eq_map,
      List.countP_cons, List.countP_map]
    have hcomp : ((fun k => (a :: b :: rest).getD k false && !((b :: rest).getD k false))
        ∘ Nat.succ) = (fun k => (b :: rest).getD k false && !(rest.getD k false)) := by
      funext k
      simp
    rw [hcomp]
    simp
    omega

theorem offToOnTransitions_cons (a : Bool) (rest : List Bool) :
    offToOnTransitions (a :: rest) = closings a rest := by
  rw [closings_eq_countP rest a, offToOnTransitions, List.length_cons,
    List.range_succ_eq_map, List.countP_cons, List.countP_map]
  have hcomp : ((fun k => decide (1 ≤ k) && (a :: rest).getD (k - 1) false
        && !((a :: rest).getD k false)) ∘ Nat.succ)
      = (fun k => (a :: rest).getD k false && !(rest.getD k false)) := by
    funext k
    simp
  rw [hcomp]
  simp

theorem cells_wellFormed_or_childless :
    ∀ cells : List Node,
      (∃ texts : List String, cells.map firstChildData = texts.map some) ∨
      (∃ pre c post, cells = pre ++ c :: post ∧ (∀ n ∈ pre, n.Children ≠ []) ∧
        c.Children = [])
  | [] => Or.inl ⟨[], rfl⟩
  | x :: rest => by
    cases hx : x.Children with
    | nil => exact Or.inr ⟨[], x, rest, rfl, (fun _ hn => by cases hn), hx⟩
    | cons fc more =>
      rcases cells_wellFormed_or_childless rest with ⟨texts, ht⟩ | ⟨pre, c, post, hl, hpre, hc⟩
      · refine Or.inl ⟨fc.Data :: texts, ?_⟩
        simp [firstChildData, hx, ht]
      · refine Or.inr ⟨x :: pre, c, post, by simp [hl], ?_, hc⟩
        intro n hn
        rcases List.mem_cons.1 hn with h | h
        · subst h
          simp [hx]
        · exact hpre n h

theorem scan_returned_wellFormed (groupRow : NodeRef) (T0 : Time) (v : Blackouts × Time)
    (h : scan groupRow T0 = .returned v) :
    ∃ d ds, groupRow.node.Children.map firstChildData = (d :: ds).map some := by
  rcases cells_wellFormed_or_childless groupRow.node.Children with
    ⟨texts, ht⟩ | ⟨pre, c, post, hl, hpre, hc⟩
  · cases texts with
    | nil =>
      have hnil : groupRow.node.Children = [] := by simpa using ht
      simp [scan, NodeRef.FirstChild, hnil] at h
    | cons d ds => exact ⟨d, ds, ht⟩
  · have hnil := scanLoop_childless c post hc pre
    unfold scan NodeRef.FirstChild at h
    cases hch : groupRow.node.Children with
    | nil => rw [hch] at h; simp at h
    | cons x rest =>
      rw [hch] at h
      simp only [] at h
      rw [hnil x rest _ (by rw [← hch, hl]) hpre] at h
      simp at h

theorem scan_aliased_wellFormed (groupRow : NodeRef) (T0 : Time) (d : String)
    (ds : List String)
    (hcells : groupRow.node.Children.map firstChildData = (d :: ds).map some) :
    ∃ blackouts last, scan groupRow T0 = .returned (blackouts, last) ∧
      (∀ tb ∈ blackouts, tb.StartAt = some Var.startTime ∧ tb.EndAt = some Var.startTime) ∧
      last = T0 + ((groupRow.node.Children.length : Int) - 1) * Hour ∧
      ∀ iv ∈ readScan (blackouts, last),
        iv = (some (T0 + ((groupRow.node.Children.length : Int) - 1) * Hour),
              some (T0 + ((groupRow.node.Children.length : Int) - 1) * Hour)) := by
  have hlen : groupRow.node.Children.length = ds.length + 1 := by
    have := congrArg List.length hcells
    simpa using this
  have hal := scanTexts_aliased ds d (initialState T0) (fun _ h => by cases h) rfl
  have htime := scanTexts_times ds d (initialState T0) (by simp [initialState, Time.Add])
  have hlast : (scanTexts d ds (initialState T0)).startTime
      = T0 + ((groupRow.node.Children.length : Int) - 1) * Hour := by
    rw [htime, hlen]
    simp [initialState]
  refine ⟨_, _, scan_wellFormed groupRow T0 d ds hcells, ?_, hlast, ?_⟩
  · intro tb htb
    rw [hal tb htb]
    exact ⟨rfl, rfl⟩
  · intro iv hiv
    simp only [readScan, List.mem_map] at hiv
    obtain ⟨tb, htb, rfl⟩ := hiv
    rw [hal tb htb, hlast]
    rfl

/-- C17: for every row and every anchor `T0`, with `n` the number of cells: when every
cell has a first child (so `n ≥ 1` and no read fails) the scan returns, and whenever it
returns, every `Timeblock` of the result holds the address of the variable `startTime` in
both `StartAt` and `EndAt`, the final content of that variable is `T0 + (n-1)h`, and so
every interval reads start = end = `T0 + (n-1)h` after the return. -/
theorem C17_every_interval_reads_last_hour (groupRow : NodeRef) (T0 : Time) :
    (∀ d ds, groupRow.node.Children.map firstChildData = (d :: ds).map some →
      ∃ blackouts last, scan groupRow T0 = .returned (blackouts, last) ∧
        (∀ tb ∈ blackouts, tb.StartAt = some Var.startTime ∧ tb.EndAt = some Var.startTime) ∧
        last = T0 + ((groupRow.node.Children.length : Int) - 1) * Hour ∧
        ∀ iv ∈ readScan (blackouts, last),
          iv = (some (T0 + ((groupRow.node.Children.length : Int) - 1) * Hour),
                some (T0 + ((groupRow.node.Children.length : Int) - 1) * Hour))) ∧
    (∀ blackouts last, scan groupRow T0 = .returned (blackouts, last) →
        1 ≤ groupRow.node.Children.length ∧
        (∀ tb ∈ blackouts, tb.StartAt = some Var.startTime ∧ tb.EndAt = some Var.startTime) ∧
        last = T0 + ((groupRow.node.Children.length : Int) - 1) * Hour ∧
        ∀ iv ∈ readScan (blackouts, last),
          iv = (some (T0 + ((groupRow.node.Children.length : Int) - 1) * Hour),
                some (T0 + ((groupRow.node.Children.length : Int) - 1) * Hour))) := by
  refine ⟨fun d ds h => scan_aliased_wellFormed groupRow T0 d ds h, ?_⟩
  intro blackouts last hret
  obtain ⟨d, ds, hcells⟩ := scan_returned_wellFormed groupRow T0 _ hret
  obtain ⟨b, l, hscan, hrest⟩ := scan_aliased_wellFormed groupRow T0 d ds hcells
  rw [hret] at hscan
  simp only [Outcome.returned.injEq, Prod.mk.injEq] at hscan
  obtain ⟨rfl, rfl⟩ := hscan
  refine ⟨?_, hrest⟩
  have := congrArg List.length hcells
  simp at this
  omega

/-- Witness of C17: on the row `[off, on, on, off, on]` at the anchor 0, both intervals
read `[4h, 4h]`. -/
theorem C17_every_interval_reads_last_hour_witness :
    ∃ blackouts last,
      scan (rowOf [cellOff, cellOn, cellOn, cellOff, cellOn]) 0 = .returned (blackouts, last) ∧
      (∀ tb ∈ blackouts, tb.StartAt = some Var.startTime ∧ tb.EndAt = some Var.startTime) ∧
      last = 0 + (((5 : Nat) : Int) - 1) * Hour ∧
      ∀ iv ∈ readScan (blackouts, last),
        iv = (some (0 + (((5 : Nat) : Int) - 1) * Hour),
              some (0 + (((5 : Nat) : Int) - 1) * Hour)) :=
  (C17_every_interval_reads_last_hour (rowOf [cellOff, cellOn, cellOn, cellOff, cellOn]) 0).1
    "в" ["з", "з", "в", "з"] rfl

theorem scan_length_wellFormed (groupRow : NodeRef) (T0 : Time) (d : String)
    (ds : List String)
    (hcells : groupRow.node.Children.map firstChildData = (d :: ds).map some) :
    ∃ blackouts last, scan groupRow T0 = .returned (blackouts, last) ∧
      blackouts.length = offToOnTransitions ((d :: ds).map isOffText) := by
  refine ⟨_, _, scan_wellFormed groupRow T0 d ds hcells, ?_⟩
  have hl := scanTexts_length ds d (initialState T0) false (by simp [initialState])
  rw [hl, List.map_cons, offToOnTransitions_cons]
  simp [initialState, closings]

/-- C18: for every row of `n ≥ 1` cells that all have a first child and every anchor, the
scan returns, and the number of intervals returned is the number of indices `k` in
`1..n-1` such that cell `k-1` is classified power off and cell `k` power on. -/
theorem C18_one_interval_per_off_to_on (groupRow : NodeRef) (T0 : Time) (d : String)
    (ds : List String)
    (hcells : groupRow.node.Children.map firstChildData = (d :: ds).map some) :
    ∃ blackouts last, scan groupRow T0 = .returned (blackouts, last) ∧
      blackouts.length = offToOnTransitions ((d :: ds).map isOffText) :=
  scan_length_wellFormed groupRow T0 d ds hcells

/-- Witness of C18: the row `[off, on, on, off, on, off]` has the two transitions at the
indices 1 and 4, the run that reaches the end of the row gives none. -/
theorem C18_one_interval_per_off_to_on_witness :
    ∃ blackouts last,
      scan (rowOf [cellOff, cellOn, cellOn, cellOff, cellOn, cellOff]) 0
        = .returned (blackouts, last) ∧
      blackouts.length = 2 :=
  C18_one_interval_per_off_to_on (rowOf [cellOff, cellOn, cellOn, cellOff, cellOn, cellOff]) 0
    "в" ["з", "з", "в", "з", "в"] rfl

theorem closings_all_on : ∀ l : List Bool, (∀ b ∈ l, b = false) → closings false l = 0
  | [], _ => rfl
  | b :: rest, h => by
    have hb : b = false := h b (by simp)
    subst hb
    simp [closings, closings_all_on rest (fun c hc => h c (by simp [hc]))]

theorem texts_of_all_on :
    ∀ cells : List Node,
      (∀ c ∈ cells, ∃ fc more, c.Children = fc :: more ∧
        TrimSpace fc.Data = tableValuePowerIsOn) →
      ∃ texts : List String, cells.map firstChildData = texts.map some ∧
        ∀ b ∈ texts.map isOffText, b = false
  | [], _ => ⟨[], rfl, fun _ h => by cases h⟩
  | x :: rest, h => by
    obtain ⟨fc, more, hx, hon⟩ := h x (by simp)
    obtain ⟨texts, ht, hall⟩ := texts_of_all_on rest (fun c hc => h c (by simp [hc]))
    refine ⟨fc.Data :: texts, by simp [firstChildData, hx, ht], ?_⟩
    intro b hb
    simp only [List.map_cons, List.mem_cons] at hb
    rcases hb with hb | hb
    · rw [hb]
      simp [isOffText, hon]
    · exact hall b hb

theorem LoadBlackouts_of_scan (w : World) (group : Int) (page : String) (root : Node)
    (groupRow : NodeRef) (T0 : Time) (blackouts : Blackouts) (last : Time)
    (hgroup : 1 ≤ group ∧ group ≤ 18)
    (hpage : loadBlackoutsPage w = .ok page) (hparse : w.Parse page = .ok root)
    (hnav : navigate ⟨root, []⟩ group = .returned (.ok groupRow))
    (hday : dayStartTimeCV w = .returned T0)
    (hscan : scan groupRow T0 = .returned (blackouts, last)) :
    LoadBlackouts w group = .returned ⟨blackouts, none, ⟨some last⟩⟩ := by
  have hv : ¬ (group < minGroupNumber ∨ group > maxGroupNumber) := by
    simp only [minGroupNumber, maxGroupNumber]; omega
  simp only [LoadBlackouts, hv, if_false, hpage, hparse, hnav, hday, hscan]

/-- C11: for every non-empty row in which every cell has a first child whose text,
trimmed, equals the sentinel "з", and every anchor, the scan returns the empty schedule;
and a call of `LoadBlackouts` that reaches this row returns the empty schedule and a nil
error. -/
theorem C11_all_on_empty_schedule (groupRow : NodeRef) (T0 : Time)
    (hne : groupRow.node.Children ≠ [])
    (hon : ∀ c ∈ groupRow.node.Children, ∃ fc more, c.Children = fc :: more ∧
      TrimSpace fc.Data = tableValuePowerIsOn) :
    (∃ last, scan groupRow T0 = .returned ([], last)) ∧
    (∀ (w : World) (group : Int) (page : String) (root : Node),
      (1 ≤ group ∧ group ≤ 18) → loadBlackoutsPage w = .ok page → w.Parse page = .ok root →
      navigate ⟨root, []⟩ group = .returned (.ok groupRow) →
      dayStartTimeCV w = .returned T0 →
      ∃ m, LoadBlackouts w group = .returned ⟨[], none, m⟩) := by
  obtain ⟨texts, ht, hall⟩ := texts_of_all_on groupRow.node.Children hon
  cases texts with
  | nil => exact absurd (by simpa using ht) hne
  | cons d ds =>
    obtain ⟨b, last, hscan, hlen⟩ := scan_length_wellFormed groupRow T0 d ds ht
    have hzero : b.length = 0 := by
      rw [hlen, List.map_cons, offToOnTransitions_cons]
      have h0 := closings_all_on _ hall
      simpa [closings] using h0
    have hb : b = [] := List.length_eq_zero.1 hzero
    subst hb
    refine ⟨⟨last, hscan⟩, ?_⟩
    intro w group page root hg hpage hparse hnav hday
    exact ⟨_, LoadBlackouts_of_scan w group page root groupRow T0 [] last hg hpage hparse
      hnav hday hscan⟩

/-- Witness of C11: the row `[on, on, on]`. -/
theorem C11_all_on_empty_schedule_witness :
    (∃ last, scan (rowOf [cellOn, cellOn, cellOn]) 0 = .returned ([], last)) ∧
    (∀ (w : World) (group : Int) (page : String) (root : Node),
      (1 ≤ group ∧ group ≤ 18) → loadBlackoutsPage w = .ok page → w.Parse page = .ok root →
      navigate ⟨root, []⟩ group = .returned (.ok (rowOf [cellOn, cellOn, cellOn])) →
      dayStartTimeCV w = .returned 0 →
      ∃ m, LoadBlackouts w group = .returned ⟨[], none, m⟩) :=
  C11_all_on_empty_schedule (rowOf [cellOn, cellOn, cellOn]) 0
    (by simp [rowOf, element, Node.Children])
    (fun c hc => by
      have hc1 : c ∈ [cellOn, cellOn, cellOn] := hc
      have hc2 : c = cellOn := by simpa using hc1
      subst hc2
      exact ⟨textNode "з", [], rfl, trimSpace_on⟩)

/-- C12 (the code departs from the claim): for every anchor `T0`, the row `[off, on, off]`
and the same row without its trailing off-run, `[off, on]`, both give one interval, but
read after the return the first is `[T0+2h, T0+2h]` and the second `[T0+1h, T0+1h]`: the
results differ. The row `[on, off, off]` gives the empty schedule. -/
theorem C12_trailing_run_moves_the_instants (T0 : Time) :
    scanRead (rowOf [cellOff, cellOn, cellOff]) T0
      = .returned [(some (T0 + 2 * Hour), some (T0 + 2 * Hour))] ∧
    scanRead (rowOf [cellOff, cellOn]) T0
      = .returned [(some (T0 + 1 * Hour), some (T0 + 1 * Hour))] ∧
    scanRead (rowOf [cellOff, cellOn, cellOff]) T0 ≠ scanRead (rowOf [cellOff, cellOn]) T0 ∧
    scanRead (rowOf [cellOn, cellOff, cellOff]) T0 = .returned [] := by
  have h1 : scan (rowOf [cellOff, cellOn, cellOff]) T0
      = .returned ([⟨some Var.startTime, some Var.startTime⟩], T0 + 2 * Hour) := by
    simp [scan, rowOf, NodeRef.FirstChild, element, Node.Children, scanLoop, cellOn, cellOff,
      cell, textNode, Node.Data, scanCell, trimSpace_on, trimSpace_off, tableValuePowerIsOn,
      Time.Add]
    ring
  have h2 : scan (rowOf [cellOff, cellOn]) T0
      = .returned ([⟨some Var.startTime, some Var.startTime⟩], T0 + 1 * Hour) := by
    simp [scan, rowOf, NodeRef.FirstChild, element, Node.Children, scanLoop, cellOn, cellOff,
      cell, textNode, Node.Data, scanCell, trimSpace_on, trimSpace_off, tableValuePowerIsOn,
      Time.Add]
  have h3 : scan (rowOf [cellOn, cellOff, cellOff]) T0
      = .returned ([], T0 + 2 * Hour) := by
    simp [scan, rowOf, NodeRef.FirstChild, element, Node.Children, scanLoop, cellOn, cellOff,
      cell, textNode, Node.Data, scanCell, trimSpace_on, trimSpace_off, tableValuePowerIsOn,
      Time.Add]
    ring
  refine ⟨?_, ?_, ?_, ?_⟩
  · simp [scanRead, h1, Outcome.map, readScan, readBlock, Memory.load]
  · simp [scanRead, h2, Outcome.map, readScan, readBlock, Memory.load]
  · simp [scanRead, h1, h2, Outcome.map, readScan, readBlock, Memory.load, Hour]
  · simp [scanRead, h3, Outcome.map, readScan]

/-! ## The lookup as a search in the list of direct children -/

theorem findLoop_eq_find (P : NodeRef → Bool) :
    ∀ (rest : List Node) (c : Node), findLoop P c rest = (childRefs (c :: rest)).find? P
  | [], c => by
    unfold findLoop
    cases h : P ⟨c, []⟩ <;> simp [childRefs, List.find?, h]
  | c1 :: rest1, c => by
    unfold findLoop
    cases h : P ⟨c, c1 :: rest1⟩
    · simp only [Bool.false_eq_true, if_false]
      rw [findLoop_eq_find P rest1 c1]
      simp [childRefs, List.find?, h]
    · simp [childRefs, List.find?, h]

theorem findChild_eq_find (node : NodeRef) (P : NodeRef → Bool) :
    findChildByCriteriaFunc node P = (childRefs node.node.Children).find? P := by
  unfold findChildByCriteriaFunc NodeRef.FirstChild
  cases hc : node.node.Children with
  | nil => simp [childRefs]
  | cons c rest =>
    simp only []
    exact findLoop_eq_find P rest c

theorem findChild_some_iff (node : NodeRef) (P : NodeRef → Bool) (r : NodeRef) :
    findChildByCriteriaFunc node P = some r ↔
      P r = true ∧ ∃ before after, childRefs node.node.Children = before ++ r :: after ∧
        ∀ e ∈ before, P e = false := by
  rw [findChild_eq_find, List.find?_eq_some]
  simp

theorem findChild_none_iff (node : NodeRef) (P : NodeRef → Bool) :
    findChildByCriteriaFunc node P = none ↔
      ∀ e ∈ childRefs node.node.Children, P e = false := by
  rw [findChild_eq_find, List.find?_eq_none]
  simp

/-- C14: for every node and predicate `P`, `findChildByCriteriaFunc(node, P)` returns `r`
exactly when `r` is a direct child that satisfies `P` and no earlier sibling does, and it
returns nil exactly when no direct child satisfies `P` (descendants below the direct
children are not examined). -/
theorem C14_first_matching_direct_child (node : NodeRef) (P : NodeRef → Bool) :
    (∀ r, findChildByCriteriaFunc node P = some r ↔
      P r = true ∧ ∃ before after, childRefs node.node.Children = before ++ r :: after ∧
        ∀ e ∈ before, P e = false) ∧
    (findChildByCriteriaFunc node P = none ↔
      ∀ e ∈ childRefs node.node.Children, P e = false) :=
  ⟨fun r => findChild_some_iff node P r, findChild_none_iff node P⟩

/-- Witness of C14: in `nestedMain` the `main` element is a grandchild, and the lookup of
a child with data `main` returns nil. -/
theorem C14_first_matching_direct_child_witness :
    findChildByCriteriaFunc ⟨nestedMain, []⟩ (fun r => decide (r.node.Data = "main")) = none :=
  (C14_first_matching_direct_child ⟨nestedMain, []⟩
      (fun r => decide (r.node.Data = "main"))).2.2
    (fun e he => by
      have he1 : e ∈ [(⟨element "div" [] [element "main" [] []], []⟩ : NodeRef)] := he
      rw [List.mem_singleton] at he1
      subst he1
      decide)

/-- C13 (counterexample): in the document `<!DOCTYPE html><html>` the lookup of a child of
type `html` returns the doctype node, which is not an element. -/
theorem C13_counterexample :
    ∃ r, findChildElementOfType ⟨pageDoctypeAndHtml, []⟩ "html" = some r ∧
      r.node.Typ = NodeType.DoctypeNode ∧ ¬ IsElement "html" r.node :=
  ⟨⟨doctypeHtml, [element "html" [] []]⟩, rfl, rfl, by decide⟩

/-- C13 (amended): `findChildElementOfType(node, T)` returns `r` exactly when `r` is the
first direct child whose data string is `T`; the node type is not examined, so a first
child of any type (a doctype, text or comment node too) whose data string is `T` is
returned. -/
theorem C13_first_child_with_data (node : NodeRef) (T : String) :
    (∀ r, findChildElementOfType node T = some r ↔
      r.node.Data = T ∧ ∃ before after, childRefs node.node.Children = before ++ r :: after ∧
        ∀ e ∈ before, e.node.Data ≠ T) ∧
    (∀ x post, node.node.Children = x :: post → x.Data = T →
      findChildElementOfType node T = some ⟨x, post⟩) := by
  constructor
  · intro r
    unfold findChildElementOfType
    rw [findChild_some_iff]
    simp
  · intro x post hc hx
    exact ofType_first node T x post ⟨[], hc, (fun _ h => by cases h), hx⟩

/-- Witness of C13 (amended): the doctype node of `<!DOCTYPE html><html>` is returned. -/
theorem C13_first_child_with_data_witness :
    findChildElementOfType ⟨pageDoctypeAndHtml, []⟩ "html"
      = some ⟨doctypeHtml, [element "html" [] []]⟩ :=
  (C13_first_child_with_data ⟨pageDoctypeAndHtml, []⟩ "html").2
    doctypeHtml [element "html" [] []] rfl rfl

/-- C19: for every valid group and every fetched and parsed document in which the first
direct child of the root with data `html` has no next sibling, `LoadBlackouts` returns a
nil schedule and the error "missing 'html' tag on the page", whatever that child
contains. -/
theorem C19_html_without_next_sibling (w : World) (group : Int) (page : String)
    (root x : Node)
    (hgroup : 1 ≤ group ∧ group ≤ 18)
    (hpage : loadBlackoutsPage w = .ok page) (hparse : w.Parse page = .ok root)
    (hfirst : FirstWith (HasData "html") root.Children x []) :
    LoadBlackouts w group
      = .returned ⟨[], some "missing 'html' tag on the page", ⟨none⟩⟩ := by
  have hv : ¬ (group < minGroupNumber ∨ group > maxGroupNumber) := by
    simp only [minGroupNumber, maxGroupNumber]; omega
  have h1 := ofType_first ⟨root, []⟩ "html" x [] hfirst
  have hnav : navigate ⟨root, []⟩ group
      = .returned (.error "missing 'html' tag on the page") := by
    simp only [navigate, h1, NodeRef.NextSibling]
  simp only [LoadBlackouts, hv, if_false, hpage, hparse, hnav]

/-- Witness of C19: a page without doctype whose `html` element holds the whole path to
the row of group 3. -/
theorem C19_html_without_next_sibling_witness :
    LoadBlackouts (pageWorld pageWithoutDoctype) 3
      = .returned ⟨[], some "missing 'html' tag on the page", ⟨none⟩⟩ :=
  C19_html_without_next_sibling (pageWorld pageWithoutDoctype) 3 "" pageWithoutDoctype
    (element "html" [] [element "head" [] [],
      element "body" [] [element "main" [] [element "div" [idAttr "gsv"]
        [element "div" [] [rowInf3]]]]])
    ⟨by decide, by decide⟩ rfl rfl ⟨[], rfl, (fun _ h => by cases h), rfl⟩

/-! ## The classification of a cell -/

theorem scanCell_eq_branch (d : String) (s : ScanState) :
    scanCell d s = if isOffText d = true then offBranch s else onBranch s := by
  unfold scanCell isOffText offBranch onBranch
  by_cases h : TrimSpace d ≠ tableValuePowerIsOn
  · simp [h]
  · simp [h]

theorem scanLoop_status :
    ∀ (rest1 rest2 : List Node) (x1 x2 : Node) (s : ScanState),
      cellStatus x1 = cellStatus x2 → rest1.map cellStatus = rest2.map cellStatus →
      scanLoop x1 rest1 s = scanLoop x2 rest2 s
  | [], rest2, x1, x2, s, hx, hrest => by
    have hr : rest2 = [] := by simpa using hrest.symm
    subst hr
    unfold scanLoop
    unfold cellStatus firstChildData at hx
    cases h1 : x1.Children with
    | nil =>
      cases h2 : x2.Children with
      | nil => rfl
      | cons fc2 more2 => rw [h1, h2] at hx; simp at hx
    | cons fc1 more1 =>
      cases h2 : x2.Children with
      | nil => rw [h1, h2] at hx; simp at hx
      | cons fc2 more2 =>
        rw [h1, h2] at hx
        simp only [Option.map_some', Option.some.injEq] at hx
        simp only [scanCell_eq_branch, hx]
  | y1 :: rest1, rest2, x1, x2, s, hx, hrest => by
    cases rest2 with
    | nil => simp at hrest
    | cons y2 rest2 =>
      simp only [List.map_cons, List.cons.injEq] at hrest
      have ih := scanLoop_status rest1 rest2 y1 y2
      unfold scanLoop
      unfold cellStatus firstChildData at hx
      cases h1 : x1.Children with
      | nil =>
        cases h2 : x2.Children with
        | nil => rfl
        | cons fc2 more2 => rw [h1, h2] at hx; simp at hx
      | cons fc1 more1 =>
        cases h2 : x2.Children with
        | nil => rw [h1, h2] at hx; simp at hx
        | cons fc2 more2 =>
          rw [h1, h2] at hx
          simp only [Option.map_some', Option.some.injEq] at hx
          simp only [scanCell_eq_branch, hx]
          exact ih _ hrest.1 hrest.2

/-- C15 (counterexample): at the anchor 0 the row `[off, <td><span>з</span></td>]` gives no
interval while the row `[off, <td>з</td>]` gives one: the cell whose first child is a
`span` wrapping "з" is not classified like the cell whose first child is the text "з". -/
theorem C15_counterexample :
    scan (rowOf [cellOff, spanCell]) 0 = .returned ([], 1 * Hour) ∧
    scan (rowOf [cellOff, cellOn]) 0
      = .returned ([⟨some Var.startTime, some Var.startTime⟩], 1 * Hour) ∧
    scan (rowOf [cellOff, spanCell]) 0 ≠ scan (rowOf [cellOff, cellOn]) 0 := by
  decide

/-- C15 (amended): for every cell, the scan classifies it from the data string of its
first child node alone: two rows whose cells have the same classification by that string,
position by position, give the same result at every anchor, whatever lies below the first
children; a cell whose first child is a `span` element is classified power off (by the
tag name), and a cell whose first child is the text node "з" power on. -/
theorem C15_first_child_data_decides :
    (∀ (row1 row2 : NodeRef) (T0 : Time),
      row1.node.Children.map cellStatus = row2.node.Children.map cellStatus →
      scan row1 T0 = scan row2 T0) ∧
    (∀ (attr : List Attribute) (inner more : List Node),
      cellStatus (element "td" [] (element "span" attr inner :: more)) = some true) ∧
    (∀ more : List Node, cellStatus (element "td" [] (textNode "з" :: more)) = some false) := by
  refine ⟨?_, ?_, ?_⟩
  · intro row1 row2 T0 h
    unfold scan NodeRef.FirstChild
    cases h1 : row1.node.Children with
    | nil =>
      cases h2 : row2.node.Children with
      | nil => rfl
      | cons y2 rest2 => rw [h1, h2] at h; simp at h
    | cons y1 rest1 =>
      cases h2 : row2.node.Children with
      | nil => rw [h1, h2] at h; simp at h
      | cons y2 rest2 =>
        rw [h1, h2] at h
        simp only [List.map_cons, List.cons.injEq] at h
        simp only []
        rw [scanLoop_status rest1 rest2 y1 y2 _ h.1 h.2]
  · intro attr inner more
    have hspan : isOffText "span" = true := by decide
    simp [cellStatus, firstChildData, element, Node.Children, Node.Data, hspan]
  · intro more
    have hon : isOffText "з" = false := by decide
    simp [cellStatus, firstChildData, element, textNode, Node.Children, Node.Data, hon]

/-- Witness of C15 (amended): the row `[off, <td><span>з</span></td>]` scans like the row
`[off, off]`. -/
theorem C15_first_child_data_decides_witness :
    scan (rowOf [cellOff, spanCell]) 0 = scan (rowOf [cellOff, cellOff]) 0 :=
  C15_first_child_data_decides.1 (rowOf [cellOff, spanCell]) (rowOf [cellOff, cellOff]) 0
    (by decide)

theorem dropWhile_spaces_append (x : Char) (post : List Char) (hx : isSpace x = false) :
    ∀ pre : List Char, (∀ c ∈ pre, isSpace c = true) →
      (pre ++ x :: post).dropWhile isSpace = x :: post
  | [], _ => by simp [List.dropWhile, hx]
  | p :: pre, h => by
    have hp : isSpace p = true := h p (by simp)
    simp only [List.cons_append, List.dropWhile, hp]
    exact dropWhile_spaces_append x post hx pre (fun c hc => h c (by simp [hc]))

theorem sentinel_data : tableValuePowerIsOn.data = ['з'] := rfl

theorem sentinel_not_space : isSpace 'з' = false := by decide

theorem trimSpace_eq_sentinel_iff (s : String) :
    TrimSpace s = tableValuePowerIsOn ↔ IsPaddedSentinel s := by
  constructor
  · intro h
    have hd : ((s.data.dropWhile isSpace).reverse.dropWhile isSpace).reverse = ['з'] := by
      have := congrArg String.data h
      simpa [TrimSpace, sentinel_data] using this
    have hd1 : (s.data.dropWhile isSpace).reverse.dropWhile isSpace = ['з'] := by
      have := congrArg List.reverse hd
      simpa using this
    have hsplit := List.takeWhile_append_dropWhile isSpace (s.data.dropWhile isSpace).reverse
    rw [hd1] at hsplit
    have hm : s.data.dropWhile isSpace
        = 'з' :: ((s.data.dropWhile isSpace).reverse.takeWhile isSpace).reverse := by
      have := congrArg List.reverse hsplit
      simpa using this.symm
    refine ⟨s.data.takeWhile isSpace,
      ((s.data.dropWhile isSpace).reverse.takeWhile isSpace).reverse, ?_, ?_, ?_⟩
    · intro c hc
      exact List.mem_takeWhile_imp hc
    · intro c hc
      exact List.mem_takeWhile_imp (List.mem_reverse.1 hc)
    · rw [sentinel_data, List.append_assoc, List.singleton_append, ← hm,
        List.takeWhile_append_dropWhile]
  · rintro ⟨pre, post, hpre, hpost, hs⟩
    rw [sentinel_data, List.append_assoc, List.singleton_append] at hs
    have h1 : s.data.dropWhile isSpace = 'з' :: post := by
      rw [hs]
      exact dropWhile_spaces_append 'з' post sentinel_not_space pre hpre
    have h2 : (post.reverse ++ ['з']).dropWhile isSpace = ['з'] :=
      dropWhile_spaces_append 'з' [] sentinel_not_space post.reverse
        (fun c hc => hpost c (List.mem_reverse.1 hc))
    unfold TrimSpace
    rw [h1, List.reverse_cons, h2]
    rfl

/-- C16: for every cell text `s`, the scan takes the power-on branch (lines 157-162) if
and only if `s` with leading and trailing white space removed equals the sentinel "з",
and the power-off branch (lines 153-155) for every other text; the two branches differ on
a state with an open interval; empty and white-space-only texts are classified power
off. -/
theorem C16_on_iff_trimmed_sentinel (s : String) :
    (isOffText s = false ↔ IsPaddedSentinel s) ∧
    (IsPaddedSentinel s → ∀ st, scanCell s st = onBranch st) ∧
    (¬ IsPaddedSentinel s → ∀ st, scanCell s st = offBranch st) ∧
    onBranch openState ≠ offBranch openState ∧
    ((∀ c ∈ s.data, isSpace c = true) → isOffText s = true) := by
  have hiff : isOffText s = false ↔ IsPaddedSentinel s := by
    rw [← trimSpace_eq_sentinel_iff]
    simp [isOffText]
  refine ⟨hiff, ?_, ?_, by decide, ?_⟩
  · intro h st
    rw [scanCell_eq_branch, hiff.2 h]
    simp
  · intro h st
    have hoff : isOffText s = true := by
      cases hb : isOffText s with
      | true => rfl
      | false => exact absurd (hiff.1 hb) h
    rw [scanCell_eq_branch, hoff]
    simp
  · intro hall
    cases hb : isOffText s with
    | true => rfl
    | false =>
      obtain ⟨pre, post, _, _, hs⟩ := hiff.1 hb
      have hmem : 'з' ∈ s.data := by
        rw [hs, sentinel_data]
        simp
      have := hall 'з' hmem
      rw [sentinel_not_space] at this
      cases this

/-- Witness of C16: the text " з\n" is classified power on, and the texts "" and "  "
power off. -/
theorem C16_on_iff_trimmed_sentinel_witness :
    (∀ st, scanCell " з\n" st = onBranch st) ∧ isOffText "" = true ∧ isOffText "  " = true :=
  ⟨(C16_on_iff_trimmed_sentinel " з\n").2.1
      ⟨[' '], ['\n'], by decide, by decide, rfl⟩,
    (C16_on_iff_trimmed_sentinel "").2.2.2.2 (by decide),
    (C16_on_iff_trimmed_sentinel "  ").2.2.2.2 (by decide)⟩

/-! ## Off-runs that end the row -/

theorem closings_append_off :
    ∀ (l : List Bool) (openNow : Bool) (offs : List Bool), (∀ b ∈ offs, b = true) →
      closings openNow (l ++ offs) = closings openNow l
  | [], openNow, [], _ => rfl
  | [], openNow, b :: offs, h => by
    have hb : b = true := h b (by simp)
    subst hb
    have ih := closings_append_off [] true offs (fun c hc => h c (by simp [hc]))
    simp only [List.nil_append] at ih
    simp [closings, ih]
  | a :: l, openNow, offs, h => by
    have ih := closings_append_off l a offs h
    show (if openNow && !a then 1 else 0) + closings a (l ++ offs) = _
    rw [ih]
    rfl

/-- The part of C12 that holds on the code: for every row of cells that all have a first
child, made of the cells with texts `d :: ds` followed by cells classified power off, the
scan returns as many intervals as for the row with the texts `d :: ds` alone, and every
`Timeblock` returned has its `EndAt` set. -/
theorem scan_trailing_off_same_length (row1 row2 : NodeRef) (T0 : Time) (d : String)
    (ds offs : List String)
    (h1 : row1.node.Children.map firstChildData = (d :: (ds ++ offs)).map some)
    (h2 : row2.node.Children.map firstChildData = (d :: ds).map some)
    (hoffs : ∀ t ∈ offs, isOffText t = true) :
    ∃ b1 last1 b2 last2, scan row1 T0 = .returned (b1, last1) ∧
      scan row2 T0 = .returned (b2, last2) ∧ b1.length = b2.length ∧
      ∀ tb ∈ b1, tb.EndAt ≠ none := by
  obtain ⟨b1, l1, hs1, hlen1⟩ := scan_length_wellFormed row1 T0 d (ds ++ offs) h1
  obtain ⟨b2, l2, hs2, hlen2⟩ := scan_length_wellFormed row2 T0 d ds h2
  obtain ⟨b, l, hs, hal, _, _⟩ := scan_aliased_wellFormed row1 T0 d (ds ++ offs) h1
  rw [hs1] at hs
  simp only [Outcome.returned.injEq, Prod.mk.injEq] at hs
  obtain ⟨rfl, rfl⟩ := hs
  refine ⟨b1, l1, b2, l2, hs1, hs2, ?_, ?_⟩
  · rw [hlen1, hlen2, List.map_cons, List.map_cons, offToOnTransitions_cons,
      offToOnTransitions_cons, List.map_append]
    exact closings_append_off _ _ _ (by
      intro b hb
      obtain ⟨t, ht, rfl⟩ := List.mem_map.1 hb
      exact hoffs t ht)
  · intro tb htb
    rw [(hal tb htb).2]
    simp

end Schedule
